import Mathlib

/-!
Verification of the meta-partition health-check CLI
(`cli/cmd/metapartition.go` of chubaofs).

The Go source is shallowly embedded: the RPC clients become a record of
oracle functions (`MasterClient`), printed output becomes lists of
structured items (one constructor per print statement), machine integers
become `Nat`/`Int` (the quantities involved — list lengths, partition
ids, replica counts — never overflow their Go types in the modelled
ranges), and fallible remote calls return `Except`.
-/

namespace ChubaoFS

/-- Byte-wise lexicographic comparison of two character lists, the order
used by Go's `sort.Strings` (`≤` as a boolean). -/
def charListLeb : List Char → List Char → Bool
  | [], _ => true
  | _ :: _, [] => false
  | a :: as, b :: bs =>
      if a < b then true
      else if b < a then false
      else charListLeb as bs

/-- Lexicographic `≤` on strings, as compared by Go's `sort.Strings`. -/
def strLe (a b : String) : Prop := charListLeb a.data b.data = true

instance : DecidableRel strLe := fun _ _ => instDecidableEqBool _ _

instance : IsTotal String strLe := by
  constructor
  intro a b
  unfold strLe
  generalize a.data = x
  generalize b.data = y
  induction x generalizing y with
  | nil => exact Or.inl rfl
  | cons c cs ih =>
    cases y with
    | nil => exact Or.inr rfl
    | cons d ds =>
      rcases lt_trichotomy c d with h | h | h
      · exact Or.inl (by simp [charListLeb, h])
      · subst h
        rcases ih ds with h' | h'
        · exact Or.inl (by simp [charListLeb, lt_self_iff_false, h'])
        · exact Or.inr (by simp [charListLeb, lt_self_iff_false, h'])
      · exact Or.inr (by simp [charListLeb, h])

instance : IsTrans String strLe := by
  constructor
  intro a b c
  unfold strLe
  generalize a.data = x
  generalize b.data = y
  generalize c.data = z
  induction x generalizing y z with
  | nil => intro _ _; rfl
  | cons p ps ih =>
    intro hxy hyz
    cases y with
    | nil => simp [charListLeb] at hxy
    | cons q qs =>
      cases z with
      | nil => simp [charListLeb] at hyz
      | cons t ts =>
        simp only [charListLeb] at hxy hyz ⊢
        by_cases hpq : p < q
        · by_cases hqt : q < t
          · simp [lt_trans hpq hqt]
          · by_cases htq : t < q
            · simp [hqt, htq] at hyz
            · have hq : q = t := le_antisymm (not_lt.1 htq) (not_lt.1 hqt)
              subst hq
              simp [hpq]
        · by_cases hqp : q < p
          · simp [hpq, hqp] at hxy
          · have hp : p = q := le_antisymm (not_lt.1 hqp) (not_lt.1 hpq)
            subst hp
            simp only [lt_self_iff_false, if_false] at hxy
            by_cases hpt : p < t
            · simp [hpt]
            · by_cases htp : t < p
              · simp [hpt, htp] at hyz
              · simp only [hpt, htp, if_false] at hyz ⊢
                exact ih qs ts hxy hyz

instance : IsAntisymm String strLe := by
  constructor
  intro a b h1 h2
  unfold strLe at h1 h2
  have key : ∀ xs ys : List Char,
      charListLeb xs ys = true → charListLeb ys xs = true → xs = ys := by
    intro xs
    induction xs with
    | nil =>
      intro ys _ h2
      cases ys with
      | nil => rfl
      | cons d ds => simp [charListLeb] at h2
    | cons c cs ih =>
      intro ys h1 h2
      cases ys with
      | nil => simp [charListLeb] at h1
      | cons d ds =>
        simp only [charListLeb] at h1 h2
        by_cases hcd : c < d
        · have hdc : ¬ d < c := lt_asymm hcd
          simp [hcd, hdc] at h2
        · by_cases hdc : d < c
          · simp [hcd, hdc] at h1
          · have hc : c = d := le_antisymm (not_lt.1 hdc) (not_lt.1 hcd)
            subst hc
            simp only [lt_self_iff_false, if_false] at h1 h2
            rw [ih ds h1 h2]
  have hd : a.data = b.data := key _ _ h1 h2
  cases a
  cases b
  exact congrArg String.mk hd

/-- A raft peer as reported by a meta node (`proto.Peer`): only the
address field is consumed by this file. -/
structure Peer where
  addr : String
  deriving DecidableEq

/-- The partition info a single meta node reports for one partition
(`proto.MNMetaPartitionInfo`): only the peer list is consumed here. -/
structure MNMetaPartitionInfo where
  peers : List Peer
  deriving DecidableEq

/-- A replica descriptor inside a master-side partition record
(`proto.MetaReplicaInfo`): only the address is consumed here. -/
structure MetaReplicaInfo where
  addr : String
  deriving DecidableEq

/-- The master's record of a meta partition (`proto.MetaPartitionInfo`),
restricted to the fields the checked code reads.  `missNodes` stands for
the key set of Go's `MissNodes map[string]int64` (only its size is
consumed).  `status` is Go's `int8`; `-1` is the no-leader sentinel.
`replicaNum` is Go's `uint8`. -/
structure MetaPartitionInfo where
  partitionID : Nat
  replicaNum : Nat
  status : Int
  hosts : List String
  missNodes : List String
  replicas : List MetaReplicaInfo
  deriving DecidableEq

/-- A meta-node record (`proto.MetaNodeInfo`), restricted to the fields
the checked code reads: the numeric ID (the sort key of the detail rows)
and the address. -/
structure MetaNodeInfo where
  ID : Nat
  addr : String
  deriving DecidableEq

/-- The diagnosis summary returned by the master
(`proto.MetaPartitionDiagnosis`). -/
structure MetaPartitionDiagnosis where
  inactiveMetaNodes : List String
  corruptMetaPartitionIDs : List Nat
  lackReplicaMetaPartitionIDs : List Nat
  deriving DecidableEq

/-- A volume summary (`proto.VolInfo`): name and owner, as consumed by
`checkAllMetaPartitions`. -/
structure VolInfo where
  name : String
  owner : String
  deriving DecidableEq

/-- One entry of a volume's meta-partition list
(`proto.MetaPartitionView`): only the partition ID is consumed here. -/
structure MetaPartitionView where
  partitionID : Nat
  deriving DecidableEq

/-- A volume's view (`proto.VolView`): its meta-partition list. -/
structure VolView where
  metaPartitions : List MetaPartitionView
  deriving DecidableEq

/-- The RPC clients used by the commands, as a record of oracles.  Each
field models one remote call of the Go code: `getMetaPartition` is
`client.ClientAPI().GetMetaPartition`, `metaNodeGetPartition` is
`client.NodeAPI().MetaNodeGetPartition`, `diagnoseMetaPartition` is
`client.AdminAPI().DiagnoseMetaPartition()`, `getMetaNode` is
`client.NodeAPI().GetMetaNode`, `listVols` is
`client.AdminAPI().ListVols`, and `getVolume` is
`client.ClientAPI().GetVolume`.  Per the spec's client interface
(`getPartition(id) -> PartitionRecord | NotFoundError`) a successful
fetch always carries a record, so the source's defensive
`partition != nil` checks are identically true in this model.
`calcAuthKey` stands for the repository helper of the same name, whose
code is outside this excerpt; the spec (§6, `getVolumeView(name,
authKey)`) fixes only that an auth key is derived from the volume owner,
so the computation is kept abstract as a field of the environment. -/
structure MasterClient where
  getMetaPartition : Nat → Except String MetaPartitionInfo
  metaNodeGetPartition : String → Nat → Except String MNMetaPartitionInfo
  diagnoseMetaPartition : Except String MetaPartitionDiagnosis
  getMetaNode : String → Except String MetaNodeInfo
  listVols : String → Except String (List VolInfo)
  getVolume : String → String → Except String VolView
  calcAuthKey : String → String

instance exceptDecEq {ε α : Type} [DecidableEq ε] [DecidableEq α] :
    DecidableEq (Except ε α)
  | .error e1, .error e2 =>
      if h : e1 = e2 then .isTrue (by rw [h]) else .isFalse (by intro hc; cases hc; exact h rfl)
  | .error _, .ok _ => .isFalse (by intro hc; cases hc)
  | .ok _, .error _ => .isFalse (by intro hc; cases hc)
  | .ok a1, .ok a2 =>
      if h : a1 = a2 then .isTrue (by rw [h]) else .isFalse (by intro hc; cases hc; exact h rfl)

/-- Go's `sort.Strings`: ascending lexicographic sort. -/
def sortStrings (l : List String) : List String :=
  List.insertionSort strLe l

/-- Ascending sort of a partition-ID list; models
`sort.SliceStable(ids, func(i, j int) bool { return ids[i] < ids[j] })`. -/
def sortIds (l : List Nat) : List Nat :=
  List.insertionSort (· ≤ ·) l

/-- `strings.Split(addr, ":")[0]`: the prefix of the address before the
first colon (the whole string when there is none). -/
def stripPort (addr : String) : String :=
  String.mk (addr.data.takeWhile (fun c => c ≠ ':'))

/-- Modelled from the spec: the repository helper `convertPeersToArray`
is not part of this excerpt; per §3 a replica's PeerView is "the set of
peer addresses that replica currently believes constitute the
partition's membership", i.e. the address of each reported peer (the
excerpt's own lack-replica branch builds the same list inline from
`Peers`). -/
def convertPeersToArray (peers : List Peer) : List String :=
  peers.map Peer.addr

/-- Modelled from the spec: the repository helper `isEqualStrings` is
not part of this excerpt; per §4.1 the engine "compare[s] the sorted
PeerView against sorted `Hosts` for set equality", an order-independent
comparison, so the two lists are sorted and then compared. -/
def isEqualStrings (strs1 strs2 : List String) : Bool :=
  sortStrings strs1 == sortStrings strs2

/-- One line of the report accumulated by `checkMetaPartition` into its
string builder; one constructor per `WriteString` call site.  Formatting
(`formatMetaPartitionInfoRow`, the table pattern, color codes) is
outside this excerpt, so each item keeps the data its call site
interpolates. -/
inductive ReportItem where
  /-- `"Partition is not found, err:[%v]"` with the fetch error — written
  into the builder at line 221, but the early `return` at line 222
  precedes the only assignment of the named return (`outPut =
  sb.String()`, line 255), so this item never reaches a returned
  report. -/
  | notFound (err : String)
  /-- `formatMetaPartitionInfoRow(partition)`. -/
  | partitionRow (partition : MetaPartitionInfo)
  /-- the red "The partition is unhealthy according to the report message
  from master" line. -/
  | masterUnhealthy
  /-- the row written when a replica's peer-view query fails: replica
  address, the numerator text shown before `/ReplicaNum` (the source
  interpolates the literal string `"nil"`), the replica factor, and the
  error text of `"get partition info failed, err:%v"`. -/
  | replicaFailRow (addr : String) (shown : String) (factor : Nat) (err : String)
  /-- the row written when a replica's peer-view query succeeds: replica
  address (rendered with a `"(peers)"` suffix), `len(peerStrings)`, the
  replica factor, and the sorted joined peer list. -/
  | replicaPeersRow (addr : String) (count : Nat) (factor : Nat) (peers : List String)
  deriving DecidableEq

/-- Result triple of `checkMetaPartition`: the accumulated report, the
health flag, and the (named-return) error. -/
structure CheckResult where
  outPut : List ReportItem
  isHealthy : Bool
  err : Option String
  deriving DecidableEq

/-- The body of `checkMetaPartition`'s replica loop (lines 232–253) for
a single replica `r`, threading the accumulated `(report, isHealthy)`
state: query the replica's node for its local partition view; on failure
append the `nil/ReplicaNum` error row and set the flag to false (the
source then `continue`s); on success append the peer row, then set the
flag to false if the peer set differs from the (sorted) host list or the
peer count differs from the replica factor. -/
def checkReplicaStep (client : MasterClient) (pid : Nat) (sortedHosts : List String)
    (replicaNum : Nat) (acc : List ReportItem × Bool) (r : MetaReplicaInfo) :
    List ReportItem × Bool :=
  match client.metaNodeGetPartition (stripPort r.addr) pid with
  | .error e => (acc.1 ++ [.replicaFailRow r.addr "nil" replicaNum e], false)
  | .ok mnPartition =>
      let peerStrings := sortStrings (convertPeersToArray mnPartition.peers)
      let items := acc.1 ++ [.replicaPeersRow r.addr peerStrings.length replicaNum peerStrings]
      let h1 := if isEqualStrings sortedHosts peerStrings then acc.2 else false
      let h2 := if peerStrings.length = replicaNum then h1 else false
      (items, h2)

/-- `checkMetaPartition` (lines 216–257): the health flag is initialized
to `true`; fetch the partition record — on fetch error the source writes
the "not found" message into the local string builder (line 221) and
takes the bare `return` at line 222, which precedes the only assignment
of the named return `outPut` (`outPut = sb.String()`, line 255): the
message is discarded and the returned report is empty, with the initial
flag and the error.  Otherwise write the partition row, sort the hosts
in place, apply the master-side unhealthiness test (missing hosts,
no-leader status `-1`, host count ≠ replica factor), and fold the
replica loop over the replicas; line 255 then runs, so the builder
content is returned.  Note the per-replica query uses
`partition.PartitionID`, not the `pid` argument. -/
def checkMetaPartition (pid : Nat) (client : MasterClient) : CheckResult :=
  match client.getMetaPartition pid with
  | .error e => { outPut := [], isHealthy := true, err := some e }
  | .ok partition =>
      let sortedHosts := sortStrings partition.hosts
      let init : List ReportItem × Bool :=
        if 0 < partition.missNodes.length ∨ partition.status = -1 ∨
            partition.hosts.length ≠ partition.replicaNum then
          ([.partitionRow partition, .masterUnhealthy], false)
        else
          ([.partitionRow partition], true)
      let fin := partition.replicas.foldl
        (checkReplicaStep client partition.partitionID sortedHosts partition.replicaNum) init
      { outPut := fin.1, isHealthy := fin.2, err := none }

/-- One unit of printed output of the `--all` sweep
(`checkAllMetaPartitions`), one constructor per print call site. -/
inductive SweepItem where
  /-- `stdout("%v\n", err)` on a `ListVols` failure. -/
  | errLine (msg : String)
  /-- the leading `stdout("\n")`. -/
  | blank
  /-- the "[Partition peer info not valid]:" title line. -/
  | sweepTitle
  /-- the `partitionInfoTableHeader` line. -/
  | tableHead
  /-- `"Found an invalid vol: %v"` on a `GetVolume` failure. -/
  | invalidVol (name : String)
  /-- `fmt.Printf(outPut)`: the report of one unhealthy partition. -/
  | partitionReport (items : List ReportItem)
  /-- the green `"_ _ _ ..."` separator line after an unhealthy report. -/
  | separator
  deriving DecidableEq

/-- The output one sweep task emits for one partition (lines 200–210): run
`checkMetaPartition` and print the report followed by the separator
exactly when the verdict is unhealthy. -/
def sweepPartitionOutput (client : MasterClient) (mp : MetaPartitionView) : List SweepItem :=
  let res := checkMetaPartition mp.partitionID client
  if res.isHealthy then [] else [.partitionReport res.outPut, .separator]

/-- Comparison of meta-partition views by partition ID, the key of
`sort.SliceStable(volView.MetaPartitions, ...)`. -/
def mpViewLe (a b : MetaPartitionView) : Prop := a.partitionID ≤ b.partitionID

instance : DecidableRel mpViewLe := fun a b => Nat.decLe a.partitionID b.partitionID

instance : IsTotal MetaPartitionView mpViewLe :=
  ⟨fun a b => Nat.le_total a.partitionID b.partitionID⟩

instance : IsTrans MetaPartitionView mpViewLe :=
  ⟨fun _ _ _ => Nat.le_trans⟩

/-- Ascending sort of a volume's meta-partition list by partition ID. -/
def sortMetaPartitionViews (l : List MetaPartitionView) : List MetaPartitionView :=
  List.insertionSort mpViewLe l

/-- The output the sweep emits for one volume (lines 188–212): fetch the
volume view (on error, print "Found an invalid vol" and continue to the
next volume), sort its partitions by ascending ID, and emit each
partition's `sweepPartitionOutput`. -/
def volSweepOutput (client : MasterClient) (vol : VolInfo) : List SweepItem :=
  match client.getVolume vol.name (client.calcAuthKey vol.owner) with
  | .error _ => [.invalidVol vol.name]
  | .ok volView =>
      (sortMetaPartitionViews volView.metaPartitions).foldl
        (fun acc mp => acc ++ sweepPartitionOutput client mp) []

/-- `checkAllMetaPartitions` (lines 179–215): list all volumes (on error,
print it and return it); then the section header lines followed by each
volume's output in turn.  The Go code fans the per-partition diagnoses
out to goroutines joined per volume with a fixed self-throttle delay;
the model fixes the sequential in-order schedule, which emits the same
per-partition output. -/
def checkAllMetaPartitions (client : MasterClient) : List SweepItem × Option String :=
  match client.listVols "" with
  | .error e => ([.errLine e], some e)
  | .ok volInfo =>
      ([.blank, .sweepTitle, .tableHead] ++
        volInfo.foldl (fun acc vol => acc ++ volSweepOutput client vol) [],
        none)

/-- One unit of printed output of the default check mode (the `Run` body
of `newListCorruptMetaPartitionCmd`, lines 90–174), one constructor per
print call site. -/
inductive CheckItem where
  /-- the "[Inactive Meta nodes]:" title line. -/
  | inactiveTitle
  /-- the `formatMetaNodeDetailTableHeader()` line. -/
  | nodeTableHead
  /-- `formatMetaNodeDetail(node, true)`. -/
  | nodeRow (node : MetaNodeInfo)
  /-- a `stdout("\n")` between sections. -/
  | blank
  /-- the "[Corrupt meta partitions](no leader):" title line. -/
  | corruptTitle
  /-- the `partitionInfoTableHeader` line. -/
  | tableHead
  /-- `"Partition not found, err:[%v]"` before the early return. -/
  | partitionNotFound (err : String)
  /-- `formatMetaPartitionInfoRow(partition)`. -/
  | partitionRow (partition : MetaPartitionInfo)
  /-- the "[Partition lack replicas]:" title line. -/
  | lackTitle
  /-- the placeholder row when a replica's peer-view query fails in the
  lack-replica listing: replica address, the literal numerator `0` over
  the replica factor, and the `"no data"` note. -/
  | lackReplicaFailRow (addr : String) (count : Nat) (factor : Nat) (note : String)
  /-- the row when the query succeeds: replica address,
  `len(mnPartition.Peers)` over the replica factor, and the sorted
  joined peer list. -/
  | lackReplicaPeersRow (addr : String) (count : Nat) (factor : Nat) (peers : List String)
  /-- the green `"_ _ ..."` separator after one lack-replica partition. -/
  | lackSeparator
  deriving DecidableEq

/-- The corrupt-partition listing loop (lines 129–136): fetch each
partition record and print its summary row; on the first fetch error
print "Partition not found" and return (the Boolean records that the
`return` was taken, aborting the whole command). -/
def corruptLoop (client : MasterClient) : List Nat → List CheckItem × Bool
  | [] => ([], false)
  | pid :: rest =>
    match client.getMetaPartition pid with
    | .error e => ([.partitionNotFound e], true)
    | .ok partition =>
        let tail := corruptLoop client rest
        (.partitionRow partition :: tail.1, tail.2)

/-- The inner replica loop of the lack-replica listing (lines 153–169):
for each replica query its node; on failure print the `0/ReplicaNum`
placeholder row with "no data" and continue; on success print the
address, peer count over factor, and sorted peer list.  (Line 152's
`sort.Strings(partition.Hosts)` mutates a list this branch never reads
again, so it has no modelled effect.) -/
def lackReplicaRows (client : MasterClient) (partition : MetaPartitionInfo) : List CheckItem :=
  partition.replicas.map (fun r =>
    match client.metaNodeGetPartition (stripPort r.addr) partition.partitionID with
    | .error _ => .lackReplicaFailRow r.addr 0 partition.replicaNum "no data"
    | .ok mnPartition =>
        .lackReplicaPeersRow r.addr mnPartition.peers.length partition.replicaNum
          (sortStrings (mnPartition.peers.map Peer.addr)))

/-- The lack-replica listing loop (lines 144–172): fetch each partition
record; on the first fetch error print "Partition not found" and return
(the Boolean records the early `return`); otherwise print the summary
row, the per-replica rows, and the separator. -/
def lackLoop (client : MasterClient) : List Nat → List CheckItem × Bool
  | [] => ([], false)
  | pid :: rest =>
    match client.getMetaPartition pid with
    | .error e => ([.partitionNotFound e], true)
    | .ok partition =>
        let block := CheckItem.partitionRow partition ::
          (lackReplicaRows client partition ++ [CheckItem.lackSeparator])
        let tail := lackLoop client rest
        (block ++ tail.1, tail.2)

/-- Comparison of meta-node records by ID, the key of
`sort.SliceStable(metaNodes, ...)` at line 116. -/
def nodeIdLe (a b : MetaNodeInfo) : Prop := a.ID ≤ b.ID

instance : DecidableRel nodeIdLe := fun a b => Nat.decLe a.ID b.ID

instance : IsTotal MetaNodeInfo nodeIdLe := ⟨fun a b => Nat.le_total a.ID b.ID⟩

instance : IsTrans MetaNodeInfo nodeIdLe := ⟨fun _ _ _ => Nat.le_trans⟩

/-- Outcome of the default check mode: the printed items, and whether the
run died dereferencing a nil node pointer (the source appends the `node`
pointer to `metaNodes` even when `GetMetaNode` failed, so the later
`node.ID` sort key faults; nothing after the two header lines is printed
in that case). -/
structure CheckRunResult where
  out : List CheckItem
  crashed : Bool
  deriving DecidableEq

/-- The node records fetched for the inactive-node section (lines
108–115): addresses sorted ascending, one `GetMetaNode` call per address
in that order; `none` stands for the nil pointer appended when the call
fails (its error is ignored by the source). -/
def inactiveNodesFetched (client : MasterClient) (d : MetaPartitionDiagnosis) :
    List (Option MetaNodeInfo) :=
  (sortStrings d.inactiveMetaNodes).map (fun addr => (client.getMetaNode addr).toOption)

/-- The inactive-node detail rows (lines 116–121): the fetched records
re-sorted by ascending node ID and printed one per row. -/
def nodeDetailRows (fetched : List (Option MetaNodeInfo)) : List CheckItem :=
  (List.insertionSort nodeIdLe (fetched.filterMap id)).map CheckItem.nodeRow

/-- The default (no `--all`) check mode after a successful diagnosis
fetch (lines 106–173): print the inactive-node section (addresses sorted
ascending, records fetched in that order, then re-sorted by node ID for
display — if any fetch failed, the sort dereferences the appended nil
pointer and the run crashes after the two header lines), then the
corrupt-partition listing over the ascending-sorted corrupt IDs — whose
first fetch error aborts the whole command, skipping the lack-replica
section — then the lack-replica listing over the ascending-sorted
lack-replica IDs. -/
def defaultCheckBody (client : MasterClient) (d : MetaPartitionDiagnosis) : CheckRunResult :=
  let fetched := inactiveNodesFetched client d
  let head : List CheckItem := [.inactiveTitle, .nodeTableHead]
  if fetched.any Option.isNone then
    { out := head, crashed := true }
  else
    let corrupt := corruptLoop client (sortIds d.corruptMetaPartitionIDs)
    if corrupt.2 then
      { out := head ++ nodeDetailRows fetched ++ [.blank, .corruptTitle, .tableHead] ++ corrupt.1,
        crashed := false }
    else
      let lack := lackLoop client (sortIds d.lackReplicaMetaPartitionIDs)
      { out := head ++ nodeDetailRows fetched ++ [.blank, .corruptTitle, .tableHead] ++ corrupt.1 ++
          [.blank, .lackTitle, .tableHead] ++ lack.1,
        crashed := false }

/-- The whole default-mode `Run` body: fetch the diagnosis first.  On a
diagnosis error the Go code prints the error and then falls through to
dereference the nil `diagnosis` pointer, crashing; that path is modelled
as the `.error` case. -/
def runDefaultCheck (client : MasterClient) : Except String CheckRunResult :=
  match client.diagnoseMetaPartition with
  | .error e => .error e
  | .ok d => .ok (defaultCheckBody client d)

/-- The node IDs of the inactive-node detail rows of an output, in print
order. -/
def nodeRowIds (items : List CheckItem) : List Nat :=
  items.filterMap (fun i => match i with | .nodeRow n => some n.ID | _ => none)

/-- The node addresses of the inactive-node detail rows of an output, in
print order. -/
def nodeRowAddrs (items : List CheckItem) : List String :=
  items.filterMap (fun i => match i with | .nodeRow n => some n.addr | _ => none)

/-- The partition IDs of the partition summary rows of an output, in
print order. -/
def partitionRowIds (items : List CheckItem) : List Nat :=
  items.filterMap (fun i => match i with | .partitionRow p => some p.partitionID | _ => none)

/-! Concrete fixtures used to exercise the theorems below on closed
inputs.  Oracle fields irrelevant to a fixture's scenario return an
`"unused"` error. -/

/-- A fully healthy three-replica partition record. -/
def w1Partition : MetaPartitionInfo :=
  { partitionID := 10, replicaNum := 3, status := 0,
    hosts := ["h1:17210", "h2:17210", "h3:17210"], missNodes := [],
    replicas := [⟨"h1:17210"⟩, ⟨"h2:17210"⟩, ⟨"h3:17210"⟩] }

/-- A node-side view whose peers are a permutation of `w1Partition`'s
hosts. -/
def w1MN : MNMetaPartitionInfo :=
  { peers := [⟨"h3:17210"⟩, ⟨"h1:17210"⟩, ⟨"h2:17210"⟩] }

/-- Client for the all-healthy scenario: every fetch succeeds and every
replica reports the same (permuted) peer set. -/
def w1Client : MasterClient where
  getMetaPartition := fun _ => .ok w1Partition
  metaNodeGetPartition := fun _ _ => .ok w1MN
  diagnoseMetaPartition := .error "unused"
  getMetaNode := fun _ => .error "unused"
  listVols := fun _ => .error "unused"
  getVolume := fun _ _ => .error "unused"
  calcAuthKey := fun s => s

/-- A partition record the master already reports as unhealthy: one
missing host. -/
def w2Partition : MetaPartitionInfo :=
  { partitionID := 11, replicaNum := 3, status := 0,
    hosts := ["h1:17210", "h2:17210", "h3:17210"], missNodes := ["h3:17210"],
    replicas := [] }

/-- Client for the master-reports-unhealthy scenario. -/
def w2Client : MasterClient where
  getMetaPartition := fun _ => .ok w2Partition
  metaNodeGetPartition := fun _ _ => .error "unused"
  diagnoseMetaPartition := .error "unused"
  getMetaNode := fun _ => .error "unused"
  listVols := fun _ => .error "unused"
  getVolume := fun _ _ => .error "unused"
  calcAuthKey := fun s => s

/-- A healthy-by-master partition whose third replica is unreachable
(spec Scenario B). -/
def c4Partition : MetaPartitionInfo :=
  { partitionID := 10, replicaNum := 3, status := 0,
    hosts := ["h1:17210", "h2:17210", "h3:17210"], missNodes := [],
    replicas := [⟨"h1:17210"⟩, ⟨"h2:17210"⟩, ⟨"h3:17210"⟩] }

/-- Client for Scenario B: node `h3` is unreachable, the other two
report the full peer set. -/
def c4Client : MasterClient where
  getMetaPartition := fun _ => .ok c4Partition
  metaNodeGetPartition := fun addr _ =>
    if addr = "h3" then .error "connection refused"
    else .ok { peers := [⟨"h1:17210"⟩, ⟨"h2:17210"⟩, ⟨"h3:17210"⟩] }
  diagnoseMetaPartition := .error "unused"
  getMetaNode := fun _ => .error "unused"
  listVols := fun _ => .error "unused"
  getVolume := fun _ _ => .error "unused"
  calcAuthKey := fun s => s

/-- Client whose control plane cannot find any partition. -/
def w5Client : MasterClient where
  getMetaPartition := fun _ => .error "meta partition not exists"
  metaNodeGetPartition := fun _ _ => .error "unused"
  diagnoseMetaPartition := .error "unused"
  getMetaNode := fun _ => .error "unused"
  listVols := fun _ => .error "unused"
  getVolume := fun _ _ => .error "unused"
  calcAuthKey := fun s => s

/-- An unhealthy partition (missing host) sitting in a one-volume
cluster, for the sweep scenario. -/
def w6Partition : MetaPartitionInfo :=
  { partitionID := 5, replicaNum := 3, status := 0,
    hosts := ["h1:17210", "h2:17210", "h3:17210"], missNodes := ["h2:17210"],
    replicas := [] }

/-- The sweep scenario's volume summary. -/
def w6Vol : VolInfo := { name := "vol1", owner := "owner1" }

/-- Client for the sweep scenario: one volume holding one unhealthy
partition. -/
def w6Client : MasterClient where
  getMetaPartition := fun _ => .ok w6Partition
  metaNodeGetPartition := fun _ _ => .error "unused"
  diagnoseMetaPartition := .error "unused"
  getMetaNode := fun _ => .error "unused"
  listVols := fun _ => .ok [w6Vol]
  getVolume := fun _ _ => .ok { metaPartitions := [⟨5⟩] }
  calcAuthKey := fun s => s

/-- Diagnosis with two inactive nodes whose address order and node-ID
order disagree. -/
def c7Diag : MetaPartitionDiagnosis :=
  { inactiveMetaNodes := ["b", "a"], corruptMetaPartitionIDs := [],
    lackReplicaMetaPartitionIDs := [] }

/-- Client for the inactive-node ordering scenario: address `"a"` has
the larger node ID, so the ID re-sort reverses the address order. -/
def c7Client : MasterClient where
  getMetaPartition := fun _ => .error "not found"
  metaNodeGetPartition := fun _ _ => .error "unused"
  diagnoseMetaPartition := .ok c7Diag
  getMetaNode := fun addr =>
    if addr = "a" then .ok { ID := 2, addr := "a" }
    else if addr = "b" then .ok { ID := 1, addr := "b" }
    else .error "node not exists"
  listVols := fun _ => .error "unused"
  getVolume := fun _ _ => .error "unused"
  calcAuthKey := fun s => s

/-- A minimal partition record for the fail-fast scenarios. -/
def w8Partition : MetaPartitionInfo :=
  { partitionID := 1, replicaNum := 3, status := 0, hosts := [],
    missNodes := [], replicas := [] }

/-- Client for the corrupt-listing fail-fast scenario: partition 2 is
missing, every other fetch succeeds. -/
def w8Client : MasterClient where
  getMetaPartition := fun pid => if pid = 2 then .error "gone" else .ok w8Partition
  metaNodeGetPartition := fun _ _ => .error "unused"
  diagnoseMetaPartition := .error "unused"
  getMetaNode := fun _ => .error "unused"
  listVols := fun _ => .error "unused"
  getVolume := fun _ _ => .error "unused"
  calcAuthKey := fun s => s

/-- Client whose control plane is fully down, for the fetch-error
scenario of the sweep. -/
def w9Client : MasterClient where
  getMetaPartition := fun _ => .error "master down"
  metaNodeGetPartition := fun _ _ => .error "unused"
  diagnoseMetaPartition := .error "unused"
  getMetaNode := fun _ => .error "unused"
  listVols := fun _ => .error "unused"
  getVolume := fun _ _ => .error "unused"
  calcAuthKey := fun s => s

/-- A one-replica partition for the lack-replica listing scenario. -/
def w10Partition : MetaPartitionInfo :=
  { partitionID := 1, replicaNum := 3, status := 0, hosts := ["h1:17210"],
    missNodes := [], replicas := [⟨"h1:17210"⟩] }

/-- Client for the lack-replica scenario: partition 2 is missing, node
queries all fail. -/
def w10Client : MasterClient where
  getMetaPartition := fun pid => if pid = 2 then .error "gone" else .ok w10Partition
  metaNodeGetPartition := fun _ _ => .error "connection refused"
  diagnoseMetaPartition := .error "unused"
  getMetaNode := fun _ => .error "unused"
  listVols := fun _ => .error "unused"
  getVolume := fun _ _ => .error "unused"
  calcAuthKey := fun s => s

end ChubaoFS

namespace ChubaoFS

/-! Basic lemmas about the sorting and comparison helpers. -/

theorem sortStrings_perm (l : List String) : (sortStrings l).Perm l :=
  List.perm_insertionSort strLe l

theorem sortStrings_sorted (l : List String) : List.Sorted strLe (sortStrings l) :=
  List.sorted_insertionSort strLe l

theorem sortStrings_eq_of_perm {a b : List String} (h : a.Perm b) :
    sortStrings a = sortStrings b :=
  List.eq_of_perm_of_sorted ((sortStrings_perm a).trans (h.trans (sortStrings_perm b).symm))
    (sortStrings_sorted a) (sortStrings_sorted b)

theorem sortStrings_idem (l : List String) : sortStrings (sortStrings l) = sortStrings l :=
  sortStrings_eq_of_perm (sortStrings_perm l)

theorem sortStrings_length (l : List String) : (sortStrings l).length = l.length :=
  (sortStrings_perm l).length_eq

theorem isEqualStrings_iff {a b : List String} :
    isEqualStrings a b = true ↔ sortStrings a = sortStrings b := by
  simp [isEqualStrings]

theorem sortIds_sorted (l : List Nat) : List.Sorted (· ≤ ·) (sortIds l) :=
  List.sorted_insertionSort (· ≤ ·) l

/-! Lemmas about the replica loop of `checkMetaPartition`. -/

theorem checkReplicaStep_fail (client : MasterClient) (pid : Nat) (hs : List String)
    (n : Nat) (acc : List ReportItem × Bool) (r : MetaReplicaInfo) (e : String)
    (h : client.metaNodeGetPartition (stripPort r.addr) pid = Except.error e) :
    checkReplicaStep client pid hs n acc r =
      (acc.1 ++ [.replicaFailRow r.addr "nil" n e], false) := by
  unfold checkReplicaStep
  rw [h]

theorem checkReplicaStep_ok (client : MasterClient) (pid : Nat) (hs : List String)
    (n : Nat) (acc : List ReportItem × Bool) (r : MetaReplicaInfo)
    (mn : MNMetaPartitionInfo)
    (h : client.metaNodeGetPartition (stripPort r.addr) pid = Except.ok mn) :
    checkReplicaStep client pid hs n acc r =
      (acc.1 ++ [.replicaPeersRow r.addr
          (sortStrings (convertPeersToArray mn.peers)).length n
          (sortStrings (convertPeersToArray mn.peers))],
        if (sortStrings (convertPeersToArray mn.peers)).length = n then
          (if isEqualStrings hs (sortStrings (convertPeersToArray mn.peers)) then acc.2
            else false)
        else false) := by
  unfold checkReplicaStep
  rw [h]

theorem checkReplicaStep_snd_false (client : MasterClient) (pid : Nat) (hs : List String)
    (n : Nat) (acc : List ReportItem × Bool) (r : MetaReplicaInfo)
    (h : acc.2 = false) : (checkReplicaStep client pid hs n acc r).2 = false := by
  cases hf : client.metaNodeGetPartition (stripPort r.addr) pid with
  | error e => rw [checkReplicaStep_fail client pid hs n acc r e hf]
  | ok mn =>
    rw [checkReplicaStep_ok client pid hs n acc r mn hf]
    simp [h]

theorem checkReplicaStep_fst (client : MasterClient) (pid : Nat) (hs : List String)
    (n : Nat) (acc : List ReportItem × Bool) (r : MetaReplicaInfo) :
    ∃ d, (checkReplicaStep client pid hs n acc r).1 = acc.1 ++ d := by
  cases hf : client.metaNodeGetPartition (stripPort r.addr) pid with
  | error e => exact ⟨_, by rw [checkReplicaStep_fail client pid hs n acc r e hf]⟩
  | ok mn => exact ⟨_, by rw [checkReplicaStep_ok client pid hs n acc r mn hf]⟩

theorem checkReplicaStep_snd_good (client : MasterClient) (pid : Nat) (hs : List String)
    (n : Nat) (acc : List ReportItem × Bool) (r : MetaReplicaInfo)
    (mn : MNMetaPartitionInfo)
    (hf : client.metaNodeGetPartition (stripPort r.addr) pid = Except.ok mn)
    (heq : isEqualStrings hs (sortStrings (convertPeersToArray mn.peers)) = true)
    (hlen : (sortStrings (convertPeersToArray mn.peers)).length = n) :
    (checkReplicaStep client pid hs n acc r).2 = acc.2 := by
  rw [checkReplicaStep_ok client pid hs n acc r mn hf]
  simp [heq, hlen]

theorem foldl_checkReplicaStep_snd_false (client : MasterClient) (pid : Nat)
    (hs : List String) (n : Nat) :
    ∀ (rs : List MetaReplicaInfo) (acc : List ReportItem × Bool), acc.2 = false →
      (rs.foldl (checkReplicaStep client pid hs n) acc).2 = false := by
  intro rs
  induction rs with
  | nil => intro acc h; simpa using h
  | cons r rest ih =>
    intro acc h
    rw [List.foldl_cons]
    exact ih _ (checkReplicaStep_snd_false client pid hs n acc r h)

theorem foldl_checkReplicaStep_mem (client : MasterClient) (pid : Nat)
    (hs : List String) (n : Nat) :
    ∀ (rs : List MetaReplicaInfo) (acc : List ReportItem × Bool) (x : ReportItem),
      x ∈ acc.1 → x ∈ (rs.foldl (checkReplicaStep client pid hs n) acc).1 := by
  intro rs
  induction rs with
  | nil => intro acc x h; simpa using h
  | cons r rest ih =>
    intro acc x h
    rw [List.foldl_cons]
    apply ih
    obtain ⟨d, hd⟩ := checkReplicaStep_fst client pid hs n acc r
    rw [hd]
    exact List.mem_append_left _ h

theorem foldl_checkReplicaStep_snd_preserve (client : MasterClient) (pid : Nat)
    (hs : List String) (n : Nat) :
    ∀ (rs : List MetaReplicaInfo) (acc : List ReportItem × Bool),
      (∀ r ∈ rs, ∃ mn, client.metaNodeGetPartition (stripPort r.addr) pid = Except.ok mn ∧
          isEqualStrings hs (sortStrings (convertPeersToArray mn.peers)) = true ∧
          (sortStrings (convertPeersToArray mn.peers)).length = n) →
      (rs.foldl (checkReplicaStep client pid hs n) acc).2 = acc.2 := by
  intro rs
  induction rs with
  | nil => intro acc _; rfl
  | cons r rest ih =>
    intro acc hgood
    obtain ⟨mn, hf, heq, hlen⟩ := hgood r (List.mem_cons_self r rest)
    rw [List.foldl_cons, ih _ (fun q hq => hgood q (List.mem_cons_of_mem r hq))]
    exact checkReplicaStep_snd_good client pid hs n acc r mn hf heq hlen

/-! Unfolding equations for `checkMetaPartition`. -/

theorem checkMetaPartition_err (pid : Nat) (client : MasterClient) (e : String)
    (h : client.getMetaPartition pid = Except.error e) :
    checkMetaPartition pid client =
      { outPut := [], isHealthy := true, err := some e } := by
  unfold checkMetaPartition
  rw [h]

theorem checkMetaPartition_ok_isHealthy (pid : Nat) (client : MasterClient)
    (p : MetaPartitionInfo) (h : client.getMetaPartition pid = Except.ok p) :
    (checkMetaPartition pid client).isHealthy =
      (p.replicas.foldl
        (checkReplicaStep client p.partitionID (sortStrings p.hosts) p.replicaNum)
        (if 0 < p.missNodes.length ∨ p.status = -1 ∨ p.hosts.length ≠ p.replicaNum then
          ([ReportItem.partitionRow p, ReportItem.masterUnhealthy], false)
        else ([ReportItem.partitionRow p], true))).2 := by
  unfold checkMetaPartition
  rw [h]

theorem checkMetaPartition_ok_outPut (pid : Nat) (client : MasterClient)
    (p : MetaPartitionInfo) (h : client.getMetaPartition pid = Except.ok p) :
    (checkMetaPartition pid client).outPut =
      (p.replicas.foldl
        (checkReplicaStep client p.partitionID (sortStrings p.hosts) p.replicaNum)
        (if 0 < p.missNodes.length ∨ p.status = -1 ∨ p.hosts.length ≠ p.replicaNum then
          ([ReportItem.partitionRow p, ReportItem.masterUnhealthy], false)
        else ([ReportItem.partitionRow p], true))).1 := by
  unfold checkMetaPartition
  rw [h]

/-! The claims about `checkMetaPartition`. -/

/-- C1: for every partition record fetched successfully whose
missing-hosts set is empty, whose status is not the no-leader sentinel
`-1`, whose host list length equals the replica factor, and all of whose
replicas answer the peer-view query with a peer set that is set-equal to
the host list (formalized as multiset equality, the relation the
engine's sorted-list comparison decides) with cardinality equal to the
replica factor, `checkMetaPartition` returns `isHealthy = true`. -/
theorem c1_all_good_replicas_healthy (pid : Nat) (client : MasterClient)
    (p : MetaPartitionInfo)
    (hfetch : client.getMetaPartition pid = Except.ok p)
    (hmiss : p.missNodes = [])
    (hstatus : p.status ≠ -1)
    (hlen : p.hosts.length = p.replicaNum)
    (hreps : ∀ r ∈ p.replicas, ∃ mn,
        client.metaNodeGetPartition (stripPort r.addr) p.partitionID = Except.ok mn ∧
        (convertPeersToArray mn.peers).Perm p.hosts ∧
        (convertPeersToArray mn.peers).length = p.replicaNum) :
    (checkMetaPartition pid client).isHealthy = true := by
  rw [checkMetaPartition_ok_isHealthy pid client p hfetch]
  have hcond : ¬ (0 < p.missNodes.length ∨ p.status = -1 ∨
      p.hosts.length ≠ p.replicaNum) := by
    push_neg
    refine ⟨?_, hstatus, hlen⟩
    simp [hmiss]
  have hgood : ∀ r ∈ p.replicas, ∃ mn,
      client.metaNodeGetPartition (stripPort r.addr) p.partitionID = Except.ok mn ∧
      isEqualStrings (sortStrings p.hosts) (sortStrings (convertPeersToArray mn.peers)) = true ∧
      (sortStrings (convertPeersToArray mn.peers)).length = p.replicaNum := by
    intro r hr
    obtain ⟨mn, hf, hperm, hlen'⟩ := hreps r hr
    refine ⟨mn, hf, ?_, ?_⟩
    · apply isEqualStrings_iff.mpr
      rw [sortStrings_idem, sortStrings_idem]
      exact (sortStrings_eq_of_perm hperm).symm
    · rw [sortStrings_length]
      exact hlen'
  rw [if_neg hcond,
    foldl_checkReplicaStep_snd_preserve client p.partitionID (sortStrings p.hosts)
      p.replicaNum p.replicas _ hgood]

/-- Witness for C1: the all-healthy fixture is reported healthy. -/
theorem c1_witness : (checkMetaPartition 10 w1Client).isHealthy = true :=
  c1_all_good_replicas_healthy 10 w1Client w1Partition rfl rfl (by decide) (by decide)
    (fun _ _ => ⟨w1MN, rfl, by decide, by decide⟩)

/-- C2: if the fetched record has a non-empty missing-hosts set, or the
no-leader status `-1`, or a host count different from the replica
factor, `checkMetaPartition` returns `isHealthy = false`. -/
theorem c2_master_conditions_unhealthy (pid : Nat) (client : MasterClient)
    (p : MetaPartitionInfo)
    (hfetch : client.getMetaPartition pid = Except.ok p)
    (hbad : 0 < p.missNodes.length ∨ p.status = -1 ∨
      p.hosts.length ≠ p.replicaNum) :
    (checkMetaPartition pid client).isHealthy = false := by
  rw [checkMetaPartition_ok_isHealthy pid client p hfetch, if_pos hbad]
  exact foldl_checkReplicaStep_snd_false client p.partitionID (sortStrings p.hosts)
    p.replicaNum p.replicas _ rfl

/-- Witness for C2: the missing-host fixture is reported unhealthy. -/
theorem c2_witness : (checkMetaPartition 11 w2Client).isHealthy = false :=
  c2_master_conditions_unhealthy 11 w2Client w2Partition rfl (Or.inl (by decide))

/-- C3: the per-replica peer comparison is order-independent: a peer
view that is a permutation of the host list compares equal, and (with
the matching host count) leaves the health flag unchanged; conversely a
set mismatch of the sorted lists or a peer count different from the
replica factor makes `checkMetaPartition` return `isHealthy = false`. -/
theorem c3_peer_comparison_order_independent :
    (∀ hosts peers : List String, peers.Perm hosts → isEqualStrings hosts peers = true) ∧
    (∀ (client : MasterClient) (pid : Nat) (hosts : List String) (n : Nat)
        (acc : List ReportItem × Bool) (r : MetaReplicaInfo) (mn : MNMetaPartitionInfo),
      client.metaNodeGetPartition (stripPort r.addr) pid = Except.ok mn →
      (convertPeersToArray mn.peers).Perm hosts → hosts.length = n →
      (checkReplicaStep client pid (sortStrings hosts) n acc r).2 = acc.2) ∧
    (∀ (pid : Nat) (client : MasterClient) (p : MetaPartitionInfo) (r : MetaReplicaInfo)
        (mn : MNMetaPartitionInfo),
      client.getMetaPartition pid = Except.ok p → r ∈ p.replicas →
      client.metaNodeGetPartition (stripPort r.addr) p.partitionID = Except.ok mn →
      (isEqualStrings (sortStrings p.hosts) (sortStrings (convertPeersToArray mn.peers)) = false ∨
        (sortStrings (convertPeersToArray mn.peers)).length ≠ p.replicaNum) →
      (checkMetaPartition pid client).isHealthy = false) := by
  refine ⟨?_, ?_, ?_⟩
  · intro hosts peers hperm
    exact isEqualStrings_iff.mpr (sortStrings_eq_of_perm hperm.symm)
  · intro client pid hosts n acc r mn hf hperm hlen
    apply checkReplicaStep_snd_good client pid (sortStrings hosts) n acc r mn hf
    · apply isEqualStrings_iff.mpr
      rw [sortStrings_idem, sortStrings_idem]
      exact (sortStrings_eq_of_perm hperm).symm
    · rw [sortStrings_length, hperm.length_eq]
      exact hlen
  · intro pid client p r mn hfetch hr hnode hbad
    rw [checkMetaPartition_ok_isHealthy pid client p hfetch]
    obtain ⟨rs1, rs2, hsplit⟩ := List.append_of_mem hr
    rw [hsplit, List.foldl_append, List.foldl_cons]
    apply foldl_checkReplicaStep_snd_false
    rw [checkReplicaStep_ok client p.partitionID (sortStrings p.hosts) p.replicaNum _ r mn hnode]
    rcases hbad with h | h
    · simp [h]
    · simp [h]

/-- Witness for C3: the spec's example, `Hosts = [b,a,c]` against
`PeerView = [c,b,a]`, compares equal. -/
theorem c3_witness : isEqualStrings ["b", "a", "c"] ["c", "b", "a"] = true :=
  c3_peer_comparison_order_independent.1 ["b", "a", "c"] ["c", "b", "a"] (by decide)

/-- C4 counterexample: in Scenario B (third replica unreachable) the
failure row interpolates the literal numerator `"nil"`, not `0`: the
full report of the fixture run is computed and its only failure row
shows `nil/3`, and `"nil" ≠ "0"`. -/
theorem c4_counterexample :
    (checkMetaPartition 10 c4Client).isHealthy = false ∧
    (checkMetaPartition 10 c4Client).outPut =
      [ReportItem.partitionRow c4Partition,
       ReportItem.replicaPeersRow "h1:17210" 3 3 ["h1:17210", "h2:17210", "h3:17210"],
       ReportItem.replicaPeersRow "h2:17210" 3 3 ["h1:17210", "h2:17210", "h3:17210"],
       ReportItem.replicaFailRow "h3:17210" "nil" 3 "connection refused"] ∧
    ("nil" : String) ≠ "0" :=
  ⟨by decide, by decide, by decide⟩

/-- C4 (amended): for every partition and every replica whose peer-view
query fails, `checkMetaPartition` marks the partition unhealthy, appends
a report row showing the literal text `"nil"` over the expected replica
factor together with the error text, and continues with the next
replica (the loop step rewrites to the same fold over the remaining
replicas). -/
theorem c4_replica_failure_row_amended (pid : Nat) (client : MasterClient)
    (p : MetaPartitionInfo) (r : MetaReplicaInfo) (e : String)
    (hfetch : client.getMetaPartition pid = Except.ok p)
    (hr : r ∈ p.replicas)
    (herr : client.metaNodeGetPartition (stripPort r.addr) p.partitionID = Except.error e) :
    (checkMetaPartition pid client).isHealthy = false ∧
    ReportItem.replicaFailRow r.addr "nil" p.replicaNum e ∈
      (checkMetaPartition pid client).outPut ∧
    ∀ (hs : List String) (acc : List ReportItem × Bool) (rest : List MetaReplicaInfo),
      (r :: rest).foldl (checkReplicaStep client p.partitionID hs p.replicaNum) acc =
        rest.foldl (checkReplicaStep client p.partitionID hs p.replicaNum)
          (acc.1 ++ [ReportItem.replicaFailRow r.addr "nil" p.replicaNum e], false) := by
  obtain ⟨rs1, rs2, hsplit⟩ := List.append_of_mem hr
  refine ⟨?_, ?_, ?_⟩
  · rw [checkMetaPartition_ok_isHealthy pid client p hfetch, hsplit, List.foldl_append,
      List.foldl_cons,
      checkReplicaStep_fail client p.partitionID (sortStrings p.hosts) p.replicaNum _ r e herr]
    exact foldl_checkReplicaStep_snd_false _ _ _ _ rs2 _ rfl
  · rw [checkMetaPartition_ok_outPut pid client p hfetch, hsplit, List.foldl_append,
      List.foldl_cons,
      checkReplicaStep_fail client p.partitionID (sortStrings p.hosts) p.replicaNum _ r e herr]
    apply foldl_checkReplicaStep_mem
    exact List.mem_append_right _ (List.mem_cons_self _ _)
  · intro hs acc rest
    rw [List.foldl_cons,
      checkReplicaStep_fail client p.partitionID hs p.replicaNum acc r e herr]

/-- Witness for the amended C4: the Scenario B fixture is unhealthy and
its report contains the `nil/3` failure row for the unreachable
replica. -/
theorem c4_witness :
    (checkMetaPartition 10 c4Client).isHealthy = false ∧
    ReportItem.replicaFailRow "h3:17210" "nil" 3 "connection refused" ∈
      (checkMetaPartition 10 c4Client).outPut := by
  have h := c4_replica_failure_row_amended 10 c4Client c4Partition ⟨"h3:17210"⟩
    "connection refused" (by decide) (by decide) (by decide)
  exact ⟨h.1, h.2.1⟩

/-- C5 (code bug): the claim — and §4.1 of the spec — say the fetch-error
path returns a report stating "not found", and the source does write
that message into its builder at line 221; but the bare `return` at line
222 precedes the only assignment of the named return `outPut` (line
255), so the program actually returns an *empty* report, the message
discarded.  Evaluating the embedding at the failing input: the returned
record has an empty report (in particular no not-found line), the health
flag still in its initial `true` state, and the error — the claim's
flag-default and no-replica-queries parts hold, its report part does
not. -/
theorem c5_not_found_report_discarded :
    checkMetaPartition 7 w5Client =
      { outPut := [], isHealthy := true, err := some "meta partition not exists" } ∧
    ReportItem.notFound "meta partition not exists" ∉
      (checkMetaPartition 7 w5Client).outPut :=
  ⟨checkMetaPartition_err 7 w5Client "meta partition not exists" rfl, by decide⟩

/-- C9: on a control-plane fetch error the returned health flag is the
initial `true`, so the `--all` sweep — which prints only unhealthy
partitions — emits nothing for such a partition. -/
theorem c9_fetch_error_returns_healthy (pid : Nat) (client : MasterClient) (e : String)
    (hfetch : client.getMetaPartition pid = Except.error e) :
    (checkMetaPartition pid client).isHealthy = true ∧
    ∀ mp : MetaPartitionView, mp.partitionID = pid → sweepPartitionOutput client mp = [] := by
  have h := checkMetaPartition_err pid client e hfetch
  constructor
  · rw [h]
  · intro mp hmp
    simp [sweepPartitionOutput, hmp, h]

/-- Witness for C9: the fixture whose control plane is down. -/
theorem c9_witness : (checkMetaPartition 4 w9Client).isHealthy = true :=
  (c9_fetch_error_returns_healthy 4 w9Client "master down" rfl).1

/-! The `--all` sweep. -/

theorem checkAllMetaPartitions_ok (client : MasterClient) (vols : List VolInfo)
    (h : client.listVols "" = Except.ok vols) :
    (checkAllMetaPartitions client).1 =
      [SweepItem.blank, SweepItem.sweepTitle, SweepItem.tableHead] ++
        vols.foldl (fun acc vol => acc ++ volSweepOutput client vol) [] := by
  unfold checkAllMetaPartitions
  rw [h]

theorem mem_foldl_append {α β : Type} (f : α → List β) :
    ∀ (l : List α) (init : List β) (x : β), x ∈ init →
      x ∈ l.foldl (fun acc v => acc ++ f v) init := by
  intro l
  induction l with
  | nil => intro init x h; simpa using h
  | cons a l ih =>
    intro init x h
    rw [List.foldl_cons]
    exact ih _ x (List.mem_append_left _ h)

theorem mem_foldl_append_of_mem {α β : Type} (f : α → List β) :
    ∀ (l : List α) (init : List β) (a : α) (x : β), a ∈ l → x ∈ f a →
      x ∈ l.foldl (fun acc v => acc ++ f v) init := by
  intro l
  induction l with
  | nil => intro init a x h _; simp at h
  | cons b l ih =>
    intro init a x ha hx
    rw [List.foldl_cons]
    rcases List.mem_cons.1 ha with h | h
    · subst h
      exact mem_foldl_append f l _ x (List.mem_append_right _ hx)
    · exact ih _ a x h hx

theorem mem_sortMetaPartitionViews (mp : MetaPartitionView) (l : List MetaPartitionView) :
    mp ∈ sortMetaPartitionViews l ↔ mp ∈ l :=
  (List.perm_insertionSort mpViewLe l).mem_iff

/-- C6: in the `--all` sweep, a diagnosed partition produces output if
and only if its verdict is unhealthy; the output is then exactly its
report followed by the separator, and it occurs in the full sweep output
of `checkAllMetaPartitions` for any volume the partition belongs to. -/
theorem c6_sweep_prints_iff_unhealthy (client : MasterClient) (mp : MetaPartitionView) :
    (sweepPartitionOutput client mp = [] ↔
      (checkMetaPartition mp.partitionID client).isHealthy = true) ∧
    ((checkMetaPartition mp.partitionID client).isHealthy = false →
      sweepPartitionOutput client mp =
        [SweepItem.partitionReport (checkMetaPartition mp.partitionID client).outPut,
          SweepItem.separator]) ∧
    (∀ (vols : List VolInfo) (vol : VolInfo) (view : VolView),
      client.listVols "" = Except.ok vols → vol ∈ vols →
      client.getVolume vol.name (client.calcAuthKey vol.owner) = Except.ok view →
      mp ∈ view.metaPartitions →
      (checkMetaPartition mp.partitionID client).isHealthy = false →
      SweepItem.partitionReport (checkMetaPartition mp.partitionID client).outPut ∈
        (checkAllMetaPartitions client).1) := by
  refine ⟨?_, ?_, ?_⟩
  · cases h : (checkMetaPartition mp.partitionID client).isHealthy with
    | false => simp [sweepPartitionOutput, h]
    | true => simp [sweepPartitionOutput, h]
  · intro h
    simp [sweepPartitionOutput, h]
  · intro vols vol view hvols hvol hview hmp hbad
    rw [checkAllMetaPartitions_ok client vols hvols]
    apply List.mem_append_right
    apply mem_foldl_append_of_mem _ vols [] vol _ hvol
    unfold volSweepOutput
    rw [hview]
    apply mem_foldl_append_of_mem _ _ [] mp _
      ((mem_sortMetaPartitionViews mp view.metaPartitions).mpr hmp)
    simp [sweepPartitionOutput, hbad]

/-- Witness for C6: the unhealthy partition of the one-volume fixture
appears in the sweep output. -/
theorem c6_witness :
    SweepItem.partitionReport (checkMetaPartition (5 : Nat) w6Client).outPut ∈
      (checkAllMetaPartitions w6Client).1 :=
  (c6_sweep_prints_iff_unhealthy w6Client ⟨5⟩).2.2 [w6Vol] w6Vol ⟨[⟨5⟩]⟩
    rfl (by decide) rfl (by decide) (by decide)

/-! The default check mode: unfolding equations for its loops. -/

theorem corruptLoop_cons_error (client : MasterClient) (pid : Nat) (rest : List Nat)
    (e : String) (h : client.getMetaPartition pid = Except.error e) :
    corruptLoop client (pid :: rest) = ([CheckItem.partitionNotFound e], true) := by
  unfold corruptLoop
  rw [h]

theorem corruptLoop_cons_ok (client : MasterClient) (pid : Nat) (rest : List Nat)
    (p : MetaPartitionInfo) (h : client.getMetaPartition pid = Except.ok p) :
    corruptLoop client (pid :: rest) =
      (CheckItem.partitionRow p :: (corruptLoop client rest).1,
        (corruptLoop client rest).2) := by
  conv_lhs => rw [corruptLoop]
  rw [h]

theorem lackLoop_cons_error (client : MasterClient) (pid : Nat) (rest : List Nat)
    (e : String) (h : client.getMetaPartition pid = Except.error e) :
    lackLoop client (pid :: rest) = ([CheckItem.partitionNotFound e], true) := by
  unfold lackLoop
  rw [h]

theorem lackLoop_cons_ok (client : MasterClient) (pid : Nat) (rest : List Nat)
    (p : MetaPartitionInfo) (h : client.getMetaPartition pid = Except.ok p) :
    lackLoop client (pid :: rest) =
      ((CheckItem.partitionRow p ::
          (lackReplicaRows client p ++ [CheckItem.lackSeparator])) ++
          (lackLoop client rest).1,
        (lackLoop client rest).2) := by
  conv_lhs => rw [lackLoop]
  rw [h]

/-! Row-extraction computation lemmas. -/

theorem nodeRowIds_append (l1 l2 : List CheckItem) :
    nodeRowIds (l1 ++ l2) = nodeRowIds l1 ++ nodeRowIds l2 :=
  List.filterMap_append l1 l2 _

theorem nodeRowIds_cons_nodeRow (n : MetaNodeInfo) (l : List CheckItem) :
    nodeRowIds (CheckItem.nodeRow n :: l) = n.ID :: nodeRowIds l := rfl

theorem nodeRowIds_cons_partitionRow (p : MetaPartitionInfo) (l : List CheckItem) :
    nodeRowIds (CheckItem.partitionRow p :: l) = nodeRowIds l := rfl

theorem nodeRowIds_cons_notFound (e : String) (l : List CheckItem) :
    nodeRowIds (CheckItem.partitionNotFound e :: l) = nodeRowIds l := rfl

theorem nodeRowIds_cons_lackFail (a : String) (c f : Nat) (s : String) (l : List CheckItem) :
    nodeRowIds (CheckItem.lackReplicaFailRow a c f s :: l) = nodeRowIds l := rfl

theorem nodeRowIds_cons_lackPeers (a : String) (c f : Nat) (ps : List String)
    (l : List CheckItem) :
    nodeRowIds (CheckItem.lackReplicaPeersRow a c f ps :: l) = nodeRowIds l := rfl

theorem nodeRowIds_cons_lackSeparator (l : List CheckItem) :
    nodeRowIds (CheckItem.lackSeparator :: l) = nodeRowIds l := rfl

theorem nodeRowIds_map_nodeRow (nodes : List MetaNodeInfo) :
    nodeRowIds (nodes.map CheckItem.nodeRow) = nodes.map MetaNodeInfo.ID := by
  induction nodes with
  | nil => rfl
  | cons n rest ih =>
    rw [List.map_cons, nodeRowIds_cons_nodeRow, ih, List.map_cons]

theorem partitionRowIds_cons_partitionRow (p : MetaPartitionInfo) (l : List CheckItem) :
    partitionRowIds (CheckItem.partitionRow p :: l) =
      p.partitionID :: partitionRowIds l := rfl

theorem partitionRowIds_cons_notFound (e : String) (l : List CheckItem) :
    partitionRowIds (CheckItem.partitionNotFound e :: l) = partitionRowIds l := rfl

theorem corruptLoop_no_nodeRow (client : MasterClient) :
    ∀ ids, nodeRowIds (corruptLoop client ids).1 = [] := by
  intro ids
  induction ids with
  | nil => rfl
  | cons pid rest ih =>
    cases h : client.getMetaPartition pid with
    | error e =>
      rw [corruptLoop_cons_error client pid rest e h]
      rfl
    | ok p =>
      rw [corruptLoop_cons_ok client pid rest p h, nodeRowIds_cons_partitionRow]
      exact ih

theorem nodeRowIds_lackReplicaRows (client : MasterClient) (p : MetaPartitionInfo) :
    nodeRowIds (lackReplicaRows client p) = [] := by
  unfold lackReplicaRows
  generalize p.replicas = rs
  induction rs with
  | nil => rfl
  | cons r rest ih =>
    rw [List.map_cons]
    cases h : client.metaNodeGetPartition (stripPort r.addr) p.partitionID with
    | error e =>
      simp only [h]
      rw [nodeRowIds_cons_lackFail]
      exact ih
    | ok mn =>
      simp only [h]
      rw [nodeRowIds_cons_lackPeers]
      exact ih

theorem lackLoop_no_nodeRow (client : MasterClient) :
    ∀ ids, nodeRowIds (lackLoop client ids).1 = [] := by
  intro ids
  induction ids with
  | nil => rfl
  | cons pid rest ih =>
    cases h : client.getMetaPartition pid with
    | error e =>
      rw [lackLoop_cons_error client pid rest e h]
      rfl
    | ok p =>
      rw [lackLoop_cons_ok client pid rest p h, List.cons_append,
        nodeRowIds_cons_partitionRow, nodeRowIds_append, nodeRowIds_append,
        nodeRowIds_lackReplicaRows client p, ih, nodeRowIds_cons_lackSeparator]
      rfl

theorem sorted_nodeDetailRows_ids (fetched : List (Option MetaNodeInfo)) :
    List.Sorted (· ≤ ·) (nodeRowIds (nodeDetailRows fetched)) := by
  unfold nodeDetailRows
  rw [nodeRowIds_map_nodeRow]
  exact List.Pairwise.map MetaNodeInfo.ID (fun a b h => h)
    (List.sorted_insertionSort nodeIdLe (fetched.filterMap id))

theorem corruptLoop_ids_of_wellBehaved (client : MasterClient)
    (hpid : ∀ pid p, client.getMetaPartition pid = Except.ok p → p.partitionID = pid) :
    ∀ ids, partitionRowIds (corruptLoop client ids).1 <+: ids := by
  intro ids
  induction ids with
  | nil => exact ⟨[], rfl⟩
  | cons pid rest ih =>
    cases h : client.getMetaPartition pid with
    | error e =>
      rw [corruptLoop_cons_error client pid rest e h]
      exact ⟨pid :: rest, rfl⟩
    | ok p =>
      rw [corruptLoop_cons_ok client pid rest p h, partitionRowIds_cons_partitionRow,
        hpid pid p h]
      obtain ⟨t, ht⟩ := ih
      exact ⟨t, by rw [List.cons_append, ht]⟩

theorem partitionRowIds_lackReplicaRows (client : MasterClient) (p : MetaPartitionInfo) :
    partitionRowIds (lackReplicaRows client p) = [] := by
  unfold lackReplicaRows
  generalize p.replicas = rs
  induction rs with
  | nil => rfl
  | cons r rest ih =>
    rw [List.map_cons]
    cases h : client.metaNodeGetPartition (stripPort r.addr) p.partitionID with
    | error e =>
      simp only [h]
      exact ih
    | ok mn =>
      simp only [h]
      exact ih

theorem partitionRowIds_append (l1 l2 : List CheckItem) :
    partitionRowIds (l1 ++ l2) = partitionRowIds l1 ++ partitionRowIds l2 :=
  List.filterMap_append l1 l2 _

theorem lackLoop_ids_of_wellBehaved (client : MasterClient)
    (hpid : ∀ pid p, client.getMetaPartition pid = Except.ok p → p.partitionID = pid) :
    ∀ ids, partitionRowIds (lackLoop client ids).1 <+: ids := by
  intro ids
  induction ids with
  | nil => exact ⟨[], rfl⟩
  | cons pid rest ih =>
    cases h : client.getMetaPartition pid with
    | error e =>
      rw [lackLoop_cons_error client pid rest e h]
      exact ⟨pid :: rest, rfl⟩
    | ok p =>
      rw [lackLoop_cons_ok client pid rest p h, List.cons_append,
        partitionRowIds_cons_partitionRow, hpid pid p h, partitionRowIds_append,
        partitionRowIds_append, partitionRowIds_lackReplicaRows client p]
      obtain ⟨t, ht⟩ := ih
      refine ⟨t, ?_⟩
      rw [List.cons_append]
      have hsep : partitionRowIds [CheckItem.lackSeparator] = [] := rfl
      rw [hsep]
      simpa using congrArg (fun x => pid :: x) ht

/-- C7 counterexample: with two inactive nodes whose node-ID order
disagrees with their address order, the detail rows are displayed in the
order `["b", "a"]`, which differs from the ascending address order
`["a", "b"]` that sorting them would give. -/
theorem c7_counterexample :
    nodeRowAddrs (defaultCheckBody c7Client c7Diag).out = ["b", "a"] ∧
    sortStrings (nodeRowAddrs (defaultCheckBody c7Client c7Diag).out) = ["a", "b"] ∧
    nodeRowAddrs (defaultCheckBody c7Client c7Diag).out ≠
      sortStrings (nodeRowAddrs (defaultCheckBody c7Client c7Diag).out) :=
  ⟨by decide, by decide, by decide⟩

/-- C7 (amended): the corrupt and lack-replica ID listings iterate (and
hence render) their partition IDs in ascending sorted order — the rows
actually printed carry an ascending-sorted prefix of the sorted ID list,
fail-fast aborts included — and the inactive node addresses are sorted
ascending before fetching; the inactive-node detail rows, however, are
displayed in ascending node-ID order (re-sorted by node ID), not in
address order. -/
theorem c7_sorted_rendering_amended (client : MasterClient) (d : MetaPartitionDiagnosis)
    (hpid : ∀ pid p, client.getMetaPartition pid = Except.ok p → p.partitionID = pid) :
    List.Sorted (· ≤ ·) (nodeRowIds (defaultCheckBody client d).out) ∧
    partitionRowIds (corruptLoop client (sortIds d.corruptMetaPartitionIDs)).1 <+:
      sortIds d.corruptMetaPartitionIDs ∧
    List.Sorted (· ≤ ·)
      (partitionRowIds (corruptLoop client (sortIds d.corruptMetaPartitionIDs)).1) ∧
    partitionRowIds (lackLoop client (sortIds d.lackReplicaMetaPartitionIDs)).1 <+:
      sortIds d.lackReplicaMetaPartitionIDs ∧
    List.Sorted (· ≤ ·)
      (partitionRowIds (lackLoop client (sortIds d.lackReplicaMetaPartitionIDs)).1) ∧
    List.Sorted strLe (sortStrings d.inactiveMetaNodes) := by
  have hcor := corruptLoop_ids_of_wellBehaved client hpid (sortIds d.corruptMetaPartitionIDs)
  have hlack := lackLoop_ids_of_wellBehaved client hpid (sortIds d.lackReplicaMetaPartitionIDs)
  refine ⟨?_, hcor, ?_, hlack, ?_, sortStrings_sorted d.inactiveMetaNodes⟩
  · simp only [defaultCheckBody]
    by_cases hc : (inactiveNodesFetched client d).any Option.isNone = true
    · simp only [hc, if_true]
      exact List.Pairwise.nil
    · rw [Bool.not_eq_true] at hc
      simp only [hc, Bool.false_eq_true, if_false]
      by_cases hms : (corruptLoop client (sortIds d.corruptMetaPartitionIDs)).2 = true
      · simp only [hms, if_true]
        simp only [nodeRowIds_append, corruptLoop_no_nodeRow client]
        have hmid : nodeRowIds [CheckItem.blank, CheckItem.corruptTitle,
            CheckItem.tableHead] = [] := rfl
        have hhead : nodeRowIds [CheckItem.inactiveTitle, CheckItem.nodeTableHead] = [] := rfl
        rw [hmid, hhead]
        simpa using sorted_nodeDetailRows_ids (inactiveNodesFetched client d)
      · rw [Bool.not_eq_true] at hms
        simp only [hms, Bool.false_eq_true, if_false]
        simp only [nodeRowIds_append, corruptLoop_no_nodeRow client, lackLoop_no_nodeRow client]
        have hmid : nodeRowIds [CheckItem.blank, CheckItem.corruptTitle,
            CheckItem.tableHead] = [] := rfl
        have hmid2 : nodeRowIds [CheckItem.blank, CheckItem.lackTitle,
            CheckItem.tableHead] = [] := rfl
        have hhead : nodeRowIds [CheckItem.inactiveTitle, CheckItem.nodeTableHead] = [] := rfl
        rw [hmid, hmid2, hhead]
        simpa using sorted_nodeDetailRows_ids (inactiveNodesFetched client d)
  · exact List.Pairwise.sublist hcor.sublist (sortIds_sorted d.corruptMetaPartitionIDs)
  · exact List.Pairwise.sublist hlack.sublist (sortIds_sorted d.lackReplicaMetaPartitionIDs)

/-- Witness for the amended C7: the two-inactive-node fixture's detail
rows are sorted by node ID. -/
theorem c7_witness :
    List.Sorted (· ≤ ·) (nodeRowIds (defaultCheckBody c7Client c7Diag).out) :=
  (c7_sorted_rendering_amended c7Client c7Diag (fun _ _ h => nomatch h)).1

/-! Fail-fast behaviour of the two ID listings. -/

theorem corruptLoop_fail_fast_aux (client : MasterClient) (pid : Nat) (e : String)
    (herr : client.getMetaPartition pid = Except.error e) :
    ∀ (pre post : List Nat),
      (∀ q ∈ pre, ∃ p, client.getMetaPartition q = Except.ok p) →
      ∃ preRows, corruptLoop client (pre ++ pid :: post) =
          (preRows ++ [CheckItem.partitionNotFound e], true) ∧
        preRows.length = pre.length ∧
        (∀ item ∈ preRows, ∃ p, item = CheckItem.partitionRow p) ∧
        ∀ post2, corruptLoop client (pre ++ pid :: post2) =
          corruptLoop client (pre ++ pid :: post) := by
  intro pre
  induction pre with
  | nil =>
    intro post _
    refine ⟨[], ?_, rfl, by simp, ?_⟩
    · simpa using corruptLoop_cons_error client pid post e herr
    · intro post2
      rw [List.nil_append, List.nil_append, corruptLoop_cons_error client pid post2 e herr,
        corruptLoop_cons_error client pid post e herr]
  | cons q pre ih =>
    intro post hpre
    obtain ⟨p, hp⟩ := hpre q (List.mem_cons_self q pre)
    obtain ⟨preRows, hloop, hlen, hrows, hindep⟩ :=
      ih post (fun x hx => hpre x (List.mem_cons_of_mem q hx))
    refine ⟨CheckItem.partitionRow p :: preRows, ?_, ?_, ?_, ?_⟩
    · rw [List.cons_append, corruptLoop_cons_ok client q (pre ++ pid :: post) p hp, hloop]
      rfl
    · simp [hlen]
    · intro item hitem
      rcases List.mem_cons.1 hitem with h | h
      · exact ⟨p, h⟩
      · exact hrows item h
    · intro post2
      rw [List.cons_append, List.cons_append,
        corruptLoop_cons_ok client q (pre ++ pid :: post2) p hp,
        corruptLoop_cons_ok client q (pre ++ pid :: post) p hp, hindep post2]

/-- C8: in the corrupt-partition listing, the first fetch error aborts
the whole remaining iteration: the emitted items are one summary row per
successfully fetched preceding ID followed by the single "not found"
line, the abort flag is set, and the output does not depend on the IDs
after the failing one. -/
theorem c8_corrupt_listing_fail_fast (client : MasterClient) (pre : List Nat) (pid : Nat)
    (post : List Nat) (e : String)
    (hpre : ∀ q ∈ pre, ∃ p, client.getMetaPartition q = Except.ok p)
    (herr : client.getMetaPartition pid = Except.error e) :
    (∃ preRows, corruptLoop client (pre ++ pid :: post) =
        (preRows ++ [CheckItem.partitionNotFound e], true) ∧
      preRows.length = pre.length ∧
      ∀ item ∈ preRows, ∃ p, item = CheckItem.partitionRow p) ∧
    ∀ post2, corruptLoop client (pre ++ pid :: post2) =
      corruptLoop client (pre ++ pid :: post) := by
  obtain ⟨preRows, h1, h2, h3, h4⟩ := corruptLoop_fail_fast_aux client pid e herr pre post hpre
  exact ⟨⟨preRows, h1, h2, h3⟩, h4⟩

/-- Witness for C8: with IDs `[1, 2, 3]` and partition 2 missing, the
listing prints partition 1's row, the "not found" line, and nothing for
partition 3. -/
theorem c8_witness :
    (∃ preRows, corruptLoop w8Client ([1] ++ 2 :: [3]) =
        (preRows ++ [CheckItem.partitionNotFound "gone"], true) ∧
      preRows.length = [1].length ∧
      ∀ item ∈ preRows, ∃ p, item = CheckItem.partitionRow p) ∧
    ∀ post2, corruptLoop w8Client ([1] ++ 2 :: post2) =
      corruptLoop w8Client ([1] ++ 2 :: [3]) := by
  apply c8_corrupt_listing_fail_fast w8Client [1] 2 [3] "gone"
  · intro q hq
    have hq1 : q = 1 := by simpa using hq
    subst hq1
    exact ⟨w8Partition, by decide⟩
  · decide

theorem lackLoop_fail_fast_aux (client : MasterClient) (pid : Nat) (e : String)
    (herr : client.getMetaPartition pid = Except.error e) :
    ∀ (pre post : List Nat),
      (∀ q ∈ pre, ∃ p, client.getMetaPartition q = Except.ok p) →
      ∃ preItems, lackLoop client (pre ++ pid :: post) =
          (preItems ++ [CheckItem.partitionNotFound e], true) ∧
        ∀ post2, lackLoop client (pre ++ pid :: post2) =
          lackLoop client (pre ++ pid :: post) := by
  intro pre
  induction pre with
  | nil =>
    intro post _
    refine ⟨[], ?_, ?_⟩
    · simpa using lackLoop_cons_error client pid post e herr
    · intro post2
      rw [List.nil_append, List.nil_append, lackLoop_cons_error client pid post2 e herr,
        lackLoop_cons_error client pid post e herr]
  | cons q pre ih =>
    intro post hpre
    obtain ⟨p, hp⟩ := hpre q (List.mem_cons_self q pre)
    obtain ⟨preItems, hloop, hindep⟩ :=
      ih post (fun x hx => hpre x (List.mem_cons_of_mem q hx))
    refine ⟨(CheckItem.partitionRow p ::
      (lackReplicaRows client p ++ [CheckItem.lackSeparator])) ++ preItems, ?_, ?_⟩
    · rw [List.cons_append, lackLoop_cons_ok client q (pre ++ pid :: post) p hp, hloop]
      simp
    · intro post2
      rw [List.cons_append, List.cons_append,
        lackLoop_cons_ok client q (pre ++ pid :: post2) p hp,
        lackLoop_cons_ok client q (pre ++ pid :: post) p hp, hindep post2]

/-- C10: the lack-replica listing applies the same fail-fast policy as
the corrupt listing — the first fetch error prints the "not found" line,
sets the abort flag, and makes the output independent of the remaining
IDs — while a failed per-replica peer-view query only contributes the
`0/ReplicaNum` placeholder row with "no data", every replica still
receiving exactly one row. -/
theorem c10_lack_replica_policies (client : MasterClient) (pre : List Nat) (pid : Nat)
    (post : List Nat) (e : String) (p : MetaPartitionInfo) (r : MetaReplicaInfo)
    (e2 : String)
    (hpre : ∀ q ∈ pre, ∃ p', client.getMetaPartition q = Except.ok p')
    (herr : client.getMetaPartition pid = Except.error e)
    (hr : r ∈ p.replicas)
    (hnode : client.metaNodeGetPartition (stripPort r.addr) p.partitionID = Except.error e2) :
    (∃ preItems, lackLoop client (pre ++ pid :: post) =
        (preItems ++ [CheckItem.partitionNotFound e], true) ∧
      ∀ post2, lackLoop client (pre ++ pid :: post2) =
        lackLoop client (pre ++ pid :: post)) ∧
    CheckItem.lackReplicaFailRow r.addr 0 p.replicaNum "no data" ∈
      lackReplicaRows client p ∧
    (lackReplicaRows client p).length = p.replicas.length := by
  refine ⟨?_, ?_, ?_⟩
  · obtain ⟨preItems, h1, h2⟩ := lackLoop_fail_fast_aux client pid e herr pre post hpre
    exact ⟨preItems, h1, h2⟩
  · unfold lackReplicaRows
    refine List.mem_map.2 ⟨r, hr, ?_⟩
    rw [hnode]
  · unfold lackReplicaRows
    simp

/-- Witness for C10: lack-replica IDs `[1, 2, 3]` with partition 2
missing abort after partition 1's block, and partition 1's sole
(unreachable) replica gets the `0/3` "no data" placeholder row. -/
theorem c10_witness :
    (∃ preItems, lackLoop w10Client ([1] ++ 2 :: [3]) =
        (preItems ++ [CheckItem.partitionNotFound "gone"], true) ∧
      ∀ post2, lackLoop w10Client ([1] ++ 2 :: post2) =
        lackLoop w10Client ([1] ++ 2 :: [3])) ∧
    CheckItem.lackReplicaFailRow "h1:17210" 0 3 "no data" ∈
      lackReplicaRows w10Client w10Partition ∧
    (lackReplicaRows w10Client w10Partition).length = w10Partition.replicas.length := by
  apply c10_lack_replica_policies w10Client [1] 2 [3] "gone" w10Partition ⟨"h1:17210"⟩
    "connection refused"
  · intro q hq
    have hq1 : q = 1 := by simpa using hq
    subst hq1
    exact ⟨w10Partition, by decide⟩
  · decide
  · decide
  · decide

end ChubaoFS
